import Mathlib

/-!
Shallow embedding of the Structa V2.4 validation-and-marshalling engine
(source file: src/examples/validation/structa.h) together with proofs of its
specified properties.

Modelling conventions:
* Arduino `String` is modelled by `String`; `strlen` is the UTF-8 byte count.
* C++ `float` values that flow through `FieldMeta` bounds and JSON numbers are
  modelled by exact rationals (`Rat`); the only float operation the engine uses
  on them is comparison and the `isnan` sentinel test, which is modelled by
  `Option` (`none` corresponds to the `NAN` "unset" sentinel of `FieldMeta`).
* The underlying JSON library (ArduinoJson) is the external collaborator the
  specification assumes correct: a parse of rendered text yields the rendered
  document back.  Text is therefore modelled by `JText`: either well-formed
  text remembering the document it parses to, or malformed text.
* Fixed document capacities (512/256 bytes) are treated as sufficient; the
  capacity-overflow behaviour of the external library is not modelled.
-/

namespace Structa

/-- `enum class SerializationError` (structa.h lines 13-20). -/
inductive SError where
  | SUCCESS
  | BUFFER_OVERFLOW
  | INVALID_JSON
  | TYPE_MISMATCH
  | FIELD_MISSING
  | MEMORY_ALLOCATION_FAILED
deriving DecidableEq, Repr

/-- `struct ErrorInfo` (structa.h lines 22-45): code, message, field path. -/
structure ErrorInfo where
  code : SError
  message : String
  fieldPath : String
deriving DecidableEq, Repr

/-- `SerializationResult<T>` (structa.h lines 47-73): success with data, or
failure with an `ErrorInfo`. -/
inductive SResult (α : Type) where
  | success (data : α)
  | failure (error : ErrorInfo)
deriving DecidableEq

/-- `success` flag of a `SerializationResult`. -/
def SResult.isOk : SResult α → Bool
  | .success _ => true
  | .failure _ => false

/-- The error triple of a failed result, `none` on success. -/
def SResult.errorOf : SResult α → Option ErrorInfo
  | .success _ => none
  | .failure e => some e

/-- The generic value of the engine: one JSON document node.  ArduinoJson
distinguishes integer-typed from float-typed numbers, which `is<long>` /
`is<float>` observe; the two constructors `jint`/`jfloat` model that tag. -/
inductive Json where
  | jint (val : Int)
  | jfloat (val : Rat)
  | jbool (val : Bool)
  | jstr (val : String)
  | jobj (members : List (String × Json))

/-- `JsonObject::containsKey` / `obj[key]` read the first member with the
given key (insertion order is preserved by the library). -/
def getKey? : List (String × Json) → String → Option Json
  | [], _ => none
  | (k, v) :: rest, key => if k = key then some v else getKey? rest key

/-- `obj[key] = value`: replaces the first member with that key in place, or
appends a new member at the end. -/
def setKey : List (String × Json) → String → Json → List (String × Json)
  | [], key, v => [(key, v)]
  | (k, w) :: rest, key, v =>
      if k = key then (key, v) :: rest else (k, w) :: setKey rest key v

/-- `doc.as<JsonObject>()`: the member list of an object document; a
non-object document converts to the null object, which has no keys. -/
def asObjMembers : Json → List (String × Json)
  | .jobj ms => ms
  | _ => []

/-- `enum class FieldType` (structa.h line 151). -/
inductive FieldType where
  | INT
  | FLOAT
  | BOOL
  | STRING
  | OBJECT
  | UNKNOWN
deriving DecidableEq, Repr

/-- `struct FieldMeta` (structa.h lines 179-191).  `minValue`/`maxValue` use a
`NAN` sentinel for "unset" in the source, modelled by `none`; `minLength`/
`maxLength` use the `-1` sentinel (any negative disables the check);
`allowedValues` is a nullable pointer plus count, modelled by an optional
list. Defaults: required and validated, no bounds, no enum restriction. -/
structure FieldMeta where
  minValue : Option Rat
  maxValue : Option Rat
  minLength : Int
  maxLength : Int
  allowedValues : Option (List String)
  required : Bool
  validate : Bool
deriving DecidableEq, Repr

/-- The `FieldMeta()` default constructor. -/
def FieldMeta.default : FieldMeta :=
  { minValue := none, maxValue := none, minLength := -1, maxLength := -1
    allowedValues := none, required := true, validate := true }

/-- `makeMetaNone` (structa.h lines 196-200): skip validation entirely. -/
def makeMetaNone : FieldMeta := { FieldMeta.default with validate := false }

/-- `makeMetaOptional` (structa.h lines 202-206). -/
def makeMetaOptional : FieldMeta := { FieldMeta.default with required := false }

/-- `makeMetaOptionalUnvalidated` (structa.h lines 208-213). -/
def makeMetaOptionalUnvalidated : FieldMeta :=
  { FieldMeta.default with required := false, validate := false }

/-- `makeMetaRange` (structa.h lines 215-220): inclusive numeric bounds. -/
def makeMetaRange (minV maxV : Rat) : FieldMeta :=
  { FieldMeta.default with minValue := some minV, maxValue := some maxV }

/-- `makeMetaStrlen` (structa.h lines 222-227): string length bounds. -/
def makeMetaStrlen (minL maxL : Int) : FieldMeta :=
  { FieldMeta.default with minLength := minL, maxLength := maxL }

/-- `makeMetaEnum` (structa.h lines 229-234): closed set of allowed strings. -/
def makeMetaEnum (values : List String) : FieldMeta :=
  { FieldMeta.default with allowedValues := some values }

/-- `struct FieldSchema` (structa.h lines 153-164): one resolved entry of a
record type's schema array. -/
structure FieldSchema where
  name : String
  type : FieldType
  required : Bool
  validate : Bool
  minValue : Option Rat
  maxValue : Option Rat
  minLength : Int
  maxLength : Int
  allowedValues : Option (List String)
deriving DecidableEq, Repr

/-- The `SCHEMA_ENTRY` macro (structa.h lines 252-254): a schema row from a
field's name, resolved type and metadata. -/
def toFieldSchema (name : String) (t : FieldType) (m : FieldMeta) : FieldSchema :=
  { name := name, type := t, required := m.required, validate := m.validate
    minValue := m.minValue, maxValue := m.maxValue
    minLength := m.minLength, maxLength := m.maxLength
    allowedValues := m.allowedValues }

/-- The C cast `(long)f.minValue` applied to a float bound: truncation toward
zero. -/
def truncToLong (q : Rat) : Int := if 0 ≤ q then ⌊q⌋ else ⌈q⌉

/-- `strlen` of an Arduino string: its byte count. -/
def strLen (s : String) : Int := (s.utf8ByteSize : Int)

/-- `!isnan(f.minValue) && val < (long)f.minValue` of the INT case: the bound
is set and the (cast) bound exceeds the value. -/
def intBelowMin (bound : Option Rat) (val : Int) : Bool :=
  match bound with
  | some m => val < truncToLong m
  | none => false

/-- `!isnan(f.maxValue) && val > (long)f.maxValue` of the INT case. -/
def intAboveMax (bound : Option Rat) (val : Int) : Bool :=
  match bound with
  | some m => truncToLong m < val
  | none => false

/-- `!isnan(f.minValue) && val < f.minValue` of the FLOAT case. -/
def floatBelowMin (bound : Option Rat) (val : Rat) : Bool :=
  match bound with
  | some m => val < m
  | none => false

/-- `!isnan(f.maxValue) && val > f.maxValue` of the FLOAT case. -/
def floatAboveMax (bound : Option Rat) (val : Rat) : Bool :=
  match bound with
  | some m => m < val
  | none => false

/-- Bounds check of the `FieldType::FLOAT` case: exact comparison, no cast. -/
def checkFloatBounds (f : FieldSchema) (val : Rat) : Option ErrorInfo :=
  if floatBelowMin f.minValue val then
    some ⟨.TYPE_MISMATCH, "Value below min", f.name⟩
  else if floatAboveMax f.maxValue val then
    some ⟨.TYPE_MISMATCH, "Value above max", f.name⟩
  else none

/-- The body of the `switch (f.type)` inside `validateSchema` (structa.h
lines 310-362), for a field that is present: the first violated rule for the
value `v`, or `none` when the field value passes all its checks.  The trailing
`if (mismatch)` of the source corresponds to the wrong-kind branches here. -/
def checkFieldValue (f : FieldSchema) (v : Json) : Option ErrorInfo :=
  match f.type with
  | .INT =>
    match v with
    | .jint val =>
        if intBelowMin f.minValue val then
          some ⟨.TYPE_MISMATCH, "Value below min", f.name⟩
        else if intAboveMax f.maxValue val then
          some ⟨.TYPE_MISMATCH, "Value above max", f.name⟩
        else none
    | _ => some ⟨.TYPE_MISMATCH, "Expected different type", f.name⟩
  | .FLOAT =>
    match v with
    | .jint val => checkFloatBounds f (val : Rat)
    | .jfloat val => checkFloatBounds f val
    | _ => some ⟨.TYPE_MISMATCH, "Expected different type", f.name⟩
  | .BOOL =>
    match v with
    | .jbool _ => none
    | _ => some ⟨.TYPE_MISMATCH, "Expected different type", f.name⟩
  | .STRING =>
    match v with
    | .jstr s =>
        if 0 ≤ f.minLength ∧ strLen s < f.minLength then
          some ⟨.TYPE_MISMATCH, "String too short", f.name⟩
        else if 0 ≤ f.maxLength ∧ f.maxLength < strLen s then
          some ⟨.TYPE_MISMATCH, "String too long", f.name⟩
        else
          match f.allowedValues with
          | some vals =>
              if s ∈ vals then none
              else some ⟨.TYPE_MISMATCH, "Invalid enum value", f.name⟩
          | none => none
    | _ => some ⟨.TYPE_MISMATCH, "Expected different type", f.name⟩
  | .OBJECT =>
    match v with
    | .jobj _ => none
    | _ => some ⟨.TYPE_MISMATCH, "Expected different type", f.name⟩
  | .UNKNOWN => none

/-- The complete treatment of one field by the `validateSchema` loop body
(structa.h lines 300-362): skipped when unvalidated, `FIELD_MISSING` when
required and absent, skipped when optional and absent, otherwise the value
check. -/
def fieldError (f : FieldSchema) (o : List (String × Json)) : Option ErrorInfo :=
  if f.validate = false then none
  else
    match getKey? o f.name with
    | none =>
        if f.required then some ⟨.FIELD_MISSING, "Required field missing", f.name⟩
        else none
    | some v => checkFieldValue f v

/-- `validateSchema` (structa.h lines 298-365): walk the schema rows in
declaration order and return the first violation, or success. -/
def validateSchema : List FieldSchema → List (String × Json) → SResult Unit
  | [], _ => .success ()
  | f :: rest, o =>
    match fieldError f o with
    | some e => .failure e
    | none => validateSchema rest o

/-- JSON text.  The external JSON library is assumed correct: well-formed text
is text obtained by rendering a document (it parses back to that document);
malformed text is anything the parser rejects, carrying the parser message. -/
inductive JText where
  | wellFormed (j : Json)
  | malformed (msg : String)

/-- `deserializeJson`: parse text into a document, or fail with a message. -/
def parseText : JText → Except String Json
  | .wellFormed j => .ok j
  | .malformed msg => .error msg

mutual
/-- The declared type of one record field, as the `StructaTypeResolver`
resolves it: a JSON-primitive C++ type, or a nested record type (a type with
the serialize capability), which carries its own schema. -/
inductive FieldTy where
  | tint
  | tfloat
  | tbool
  | tstr
  | tobj (sub : Schema)

/-- A record type's static field declaration: the ordered `FIELD_LIST` of
`(name, type, metadata)` triples from which `DEFINE_STRUCTA` generates all
per-type code. -/
inductive Schema where
  | snil
  | scons (name : String) (ty : FieldTy) (meta : FieldMeta) (rest : Schema)
end

/-- `StructaTypeResolver<type>::value` (structa.h lines 166-177). -/
def declType : FieldTy → FieldType
  | .tint => .INT
  | .tfloat => .FLOAT
  | .tbool => .BOOL
  | .tstr => .STRING
  | .tobj _ => .OBJECT

/-- `getSchema` (structa.h lines 292-296): the flat `FieldSchema` array built
by `SCHEMA_ENTRY` from the field list, in declaration order. -/
def flatten : Schema → List FieldSchema
  | .snil => []
  | .scons name ty meta rest => toFieldSchema name (declType ty) meta :: flatten rest

/-- The declared field names, in order. -/
def names : Schema → List String
  | .snil => []
  | .scons name _ _ rest => name :: names rest

mutual
/-- The value stored in one field of a record instance, per its declared
C++ type. -/
inductive Value where
  | vint (n : Int)
  | vfloat (q : Rat)
  | vbool (b : Bool)
  | vstr (s : String)
  | vrec (fields : Inst)

/-- A record instance: one value per declared field, in declaration order. -/
inductive Inst where
  | inil
  | icons (v : Value) (rest : Inst)
end

mutual
/-- The value a default-constructed member holds.  The source leaves `int`,
`float` and `bool` members indeterminate (`type name;` without initialiser);
the model picks the zero value — no verified property observes it. -/
def defaultVal : FieldTy → Value
  | .tint => .vint 0
  | .tfloat => .vfloat 0
  | .tbool => .vbool false
  | .tstr => .vstr ""
  | .tobj sub => .vrec (defaultInst sub)

/-- A default-constructed record instance (`structName data;`). -/
def defaultInst : Schema → Inst
  | .snil => .inil
  | .scons _ ty _ rest => .icons (defaultVal ty) (defaultInst rest)
end

/-- Models the byte count `serializeJson` reports for an object document.
Only its comparison with 0 is ever observed by the engine; an object document
always renders at least its two braces, so the model records 2 plus one byte
per member as a stand-in for the exact count. -/
def renderObjLength (ms : List (String × Json)) : Nat := 2 + ms.length

mutual
/-- The `FIELD_LIST(SERIALIZE_FIELD)` expansion (structa.h lines 250, 266,
279): write each field into the JSON object under its name, in declaration
order, starting from the object `o` (empty at both call sites). -/
def serializeFields : Schema → Inst → List (String × Json) → List (String × Json)
  | .snil, _, o => o
  | .scons _ _ _ _, .inil, o => o
  | .scons name ty _ rest, .icons v vs, o =>
      serializeFields rest vs (setKey o name (serializeFieldVal ty v))

/-- `JsonStruct::serializeField` (structa.h lines 117-129).  The primitive
overload stores the value.  The nested overload runs `value.serialize()` —
that is, the nested `serializeWithResult`, whose body is inlined here: it
self-validates the nested instance and renders it, falling back to the text
of an empty object on failure — and re-parses the resulting text into a
sub-document that is attached under the key (the re-parse of rendered text
always succeeds, so the field is always attached).   The non-matching
type/value combinations are unrepresentable in the source (a C++ member of a
declared type always holds a value of that type); the model maps them to an
empty object. -/
def serializeFieldVal : FieldTy → Value → Json
  | .tint, .vint n => .jint n
  | .tfloat, .vfloat q => .jfloat q
  | .tbool, .vbool b => .jbool b
  | .tstr, .vstr s => .jstr s
  | .tobj sub, .vrec inner =>
      let o := serializeFields sub inner []
      match validateSchema (flatten sub) o with
      | .failure _ => .jobj []
      | .success _ =>
          if renderObjLength o = 0 then .jobj [] else .jobj o
  | _, _ => .jobj []
end

/-- `validateSelf` (structa.h lines 263-268): serialize the instance's
current fields into a fresh document and validate it against the type's own
schema. -/
def validateSelf (s : Schema) (x : Inst) : SResult Unit :=
  validateSchema (flatten s) (serializeFields s x [])

/-- `serializeWithResult` (structa.h lines 270-288): self-validate, then
build the document and render it; a zero-length render reports
`INVALID_JSON`.  (The `MemoryTracker` side effects are modelled separately by
`serializeOps`.) -/
def serializeWithResult (s : Schema) (x : Inst) : SResult JText :=
  match validateSelf s x with
  | .failure e => .failure e
  | .success _ =>
      let o := serializeFields s x []
      if renderObjLength o = 0 then
        .failure ⟨.INVALID_JSON, "Failed to serialize", ""⟩
      else .success (.wellFormed (.jobj o))

/-- The convenience `serialize` (structa.h line 290): the rendered text on
success, the two-character empty-object text on failure. -/
def serialize (s : Schema) (x : Inst) : JText :=
  match serializeWithResult s x with
  | .success t => t
  | .failure _ => .wellFormed (.jobj [])

/-- Models ArduinoJson `as<T>` for the primitive member types.  On a value of
the matching kind it is the identity; the cross-kind coercions are behaviour
of the external library that the engine only reaches for unvalidated fields,
and the numeric ones follow the library's casts while string-source coercions
are approximated by the type's zero value. -/
def asValue : FieldTy → Json → Value
  | .tint, .jint n => .vint n
  | .tint, .jfloat q => .vint (truncToLong q)
  | .tint, .jbool b => .vint (if b then 1 else 0)
  | .tint, _ => .vint 0
  | .tfloat, .jfloat q => .vfloat q
  | .tfloat, .jint n => .vfloat (n : Rat)
  | .tfloat, .jbool b => .vfloat (if b then 1 else 0)
  | .tfloat, _ => .vfloat 0
  | .tbool, .jbool b => .vbool b
  | .tbool, _ => .vbool false
  | .tstr, .jstr s => .vstr s
  | .tstr, _ => .vstr ""
  | .tobj sub, _ => .vrec (defaultInst sub)

mutual
/-- The `FIELD_LIST(DESERIALIZE_FIELD)` expansion (structa.h lines 251, 384):
populate each declared field from the validated object, in order, over a
default-constructed instance. -/
def populateFields : Schema → List (String × Json) → Inst
  | .snil, _ => .inil
  | .scons name ty _ rest, o => .icons (populateField name ty o) (populateFields rest o)

/-- `JsonStruct::deserializeField` (structa.h lines 131-145).  The primitive
overload copies `obj[key].as<T>()` when the key is present, else leaves the
default.  The nested overload requires the child to be an object, re-renders
it to text and calls the nested convenience `T::deserialize` — inlined here:
re-parsing the re-rendered child always succeeds, so the nested call
validates the child against the nested schema and populates it on success,
while on nested validation failure the convenience form discards the error
and yields a default-constructed nested instance. -/
def populateField (name : String) (ty : FieldTy) (o : List (String × Json)) : Value :=
  match ty with
  | .tobj sub =>
      match getKey? o name with
      | some (.jobj ms) =>
          (match validateSchema (flatten sub) ms with
           | .failure _ => .vrec (defaultInst sub)
           | .success _ => .vrec (populateFields sub ms))
      | _ => .vrec (defaultInst sub)
  | .tint =>
      match getKey? o name with
      | some v => asValue .tint v
      | none => defaultVal .tint
  | .tfloat =>
      match getKey? o name with
      | some v => asValue .tfloat v
      | none => defaultVal .tfloat
  | .tbool =>
      match getKey? o name with
      | some v => asValue .tbool v
      | none => defaultVal .tbool
  | .tstr =>
      match getKey? o name with
      | some v => asValue .tstr v
      | none => defaultVal .tstr
end

/-- `deserializeWithResult` (structa.h lines 367-387): parse the text
(`INVALID_JSON` on parse failure), read it as an object, validate it against
the schema (propagating the validator's error verbatim), then populate a
fresh instance field by field.  (Tracker side effects are modelled separately
by `deserializeOps`.) -/
def deserializeWithResult (s : Schema) (t : JText) : SResult Inst :=
  match parseText t with
  | .error msg => .failure ⟨.INVALID_JSON, "Parse error: " ++ msg, ""⟩
  | .ok j =>
      match validateSchema (flatten s) (asObjMembers j) with
      | .failure e => .failure e
      | .success _ => .success (populateFields s (asObjMembers j))

/-- The convenience `deserialize` (structa.h lines 389-392): the populated
instance on success, a default-constructed instance on failure. -/
def deserializeInst (s : Schema) (t : JText) : Inst :=
  match deserializeWithResult s t with
  | .success x => x
  | .failure _ => defaultInst s

mutual
/-- The instance is well-typed for the schema: one value per declared field,
each of the field's declared C++ type.  This is automatic in the source — a
struct member of type `T` holds a `T` — and is an explicit hypothesis here. -/
def instMatches : Schema → Inst → Bool
  | .snil, .inil => true
  | .scons _ ty _ rest, .icons v vs => valMatches ty v && instMatches rest vs
  | _, _ => false

/-- The value has the field's declared type. -/
def valMatches : FieldTy → Value → Bool
  | .tint, .vint _ => true
  | .tfloat, .vfloat _ => true
  | .tbool, .vbool _ => true
  | .tstr, .vstr _ => true
  | .tobj sub, .vrec inner => instMatches sub inner
  | _, _ => false
end

mutual
/-- Field names are pairwise distinct, at every nesting level.  Automatic in
the source: the names are C++ member identifiers of one struct. -/
def schemaNodup : Schema → Bool
  | .snil => true
  | .scons name ty _ rest =>
      !((names rest).contains name) && tyNodup ty && schemaNodup rest

/-- Name distinctness of the nested schema, if any. -/
def tyNodup : FieldTy → Bool
  | .tobj sub => schemaNodup sub
  | _ => true
end

mutual
/-- Every field of the instance satisfies its declared constraints: the
serialized value of each field passes that field's `validateSchema` value
check, and the fields of every nested record instance satisfy the nested
record's own declared constraints, recursively. -/
def instSat : Schema → Inst → Bool
  | .snil, .inil => true
  | .scons name ty meta rest, .icons v vs =>
      (checkFieldValue (toFieldSchema name (declType ty) meta)
        (serializeFieldVal ty v) == none)
      && valSat ty v && instSat rest vs
  | _, _ => false

/-- Constraint satisfaction below one field: trivial for primitives,
recursive for a nested record value. -/
def valSat : FieldTy → Value → Bool
  | .tobj sub, .vrec inner => instSat sub inner
  | .tobj _, _ => false
  | _, _ => true
end

/-- The `roles` enum array of the example data model
(src/examples/validation/dataModel.h line 1). -/
def rolesList : List String := ["admin", "user", "guest"]

/-- The `Address` record of the example data model (dataModel.h lines 2-5):
two unvalidated fields. -/
def addressSchema : Schema :=
  .scons "city" .tstr makeMetaNone (.scons "zip" .tint makeMetaNone .snil)

/-- The `User` record of the example data model (dataModel.h lines 7-14). -/
def userSchema : Schema :=
  .scons "username" .tstr (makeMetaStrlen 3 15)
  (.scons "role" .tstr (makeMetaEnum rolesList)
  (.scons "age" .tint (makeMetaRange 18 100)
  (.scons "note" .tstr makeMetaOptional
  (.scons "address" (.tobj addressSchema) makeMetaOptional .snil))))

/-- A `User` instance whose every field satisfies its declared constraints. -/
def demoUser : Inst :=
  .icons (.vstr "alice")
  (.icons (.vstr "admin")
  (.icons (.vint 30)
  (.icons (.vstr "hi")
  (.icons (.vrec (.icons (.vstr "town") (.icons (.vint 7) .inil))) .inil))))

/-- A `User` instance whose `age` violates its declared range. -/
def badAgeUser : Inst :=
  .icons (.vstr "alice")
  (.icons (.vstr "admin")
  (.icons (.vint 17)
  (.icons (.vstr "hi")
  (.icons (.vrec (.icons (.vstr "town") (.icons (.vint 7) .inil))) .inil))))

/-- A nested record type with one required, validated field. -/
def nestedReqSchema : Schema := .scons "zip" .tint FieldMeta.default .snil

/-- A record type with a single `optional()` nested-object field of type
`nestedReqSchema`. -/
def outerOptSchema : Schema :=
  .scons "address" (.tobj nestedReqSchema) makeMetaOptional .snil

/-- The process-wide `MemoryTracker` counters (structa.h lines 78-97). -/
structure Tracker where
  total : Nat
  peak : Nat
deriving DecidableEq, Repr

/-- `MemoryTracker::recordAllocation` (structa.h lines 84-87). -/
def recordAllocation (st : Tracker) (size : Nat) : Tracker :=
  { total := st.total + size
    peak := if st.peak < st.total + size then st.total + size else st.peak }

/-- `MemoryTracker::recordDeallocation` (structa.h lines 88-90): subtract
only when the running total covers the size, otherwise do nothing. -/
def recordDeallocation (st : Tracker) (size : Nat) : Tracker :=
  if size ≤ st.total then { st with total := st.total - size } else st

/-- One call to the tracker. -/
inductive TrackerOp where
  | alloc (n : Nat)
  | dealloc (n : Nat)

/-- Apply one tracker call to the counters. -/
def applyOp (st : Tracker) : TrackerOp → Tracker
  | .alloc n => recordAllocation st n
  | .dealloc n => recordDeallocation st n

/-- Apply a sequence of tracker calls in order. -/
def applyOps (ops : List TrackerOp) (st : Tracker) : Tracker :=
  ops.foldl applyOp st

/-- A tracker-call sequence that restores the running total it started from
and never lowers the peak. -/
def Balanced (ops : List TrackerOp) : Prop :=
  ∀ st : Tracker,
    (applyOps ops st).total = st.total ∧ st.peak ≤ (applyOps ops st).peak

mutual
/-- The tracker calls performed while `FIELD_LIST(SERIALIZE_FIELD)` builds a
document: only nested fields touch the tracker, through the nested
`value.serialize()`. -/
def instOps : Schema → Inst → List TrackerOp
  | .snil, _ => []
  | .scons _ _ _ _, .inil => []
  | .scons _ ty _ rest, .icons v vs => valOps ty v ++ instOps rest vs

/-- The tracker calls of serializing one field.  A nested field runs the
nested `serializeWithResult` (structa.h lines 270-288): its `validateSelf`
first builds a document (nested serialization again, untracked document, but
recursively tracked sub-records), and only if that succeeds does it record
the 512-byte document allocation, rebuild the fields and record the matching
deallocation on every exit. -/
def valOps : FieldTy → Value → List TrackerOp
  | .tobj sub, .vrec inner =>
      instOps sub inner ++
      (match validateSelf sub inner with
       | .failure _ => []
       | .success _ => .alloc 512 :: (instOps sub inner ++ [.dealloc 512]))
  | _, _ => []
end

/-- The tracker calls of one `serializeWithResult` call (structa.h lines
270-288): the `validateSelf` phase (nested sub-records only), then, if
validation passed, the 512-byte allocation, the field-building phase and the
deallocation recorded on both the render-failure exit and the success exit. -/
def serializeOps (s : Schema) (x : Inst) : List TrackerOp :=
  instOps s x ++
  match validateSelf s x with
  | .failure _ => []
  | .success _ => .alloc 512 :: (instOps s x ++ [.dealloc 512])

mutual
/-- The tracker calls of `FIELD_LIST(DESERIALIZE_FIELD)`: only nested fields
touch the tracker, through the nested `T::deserialize`. -/
def populateOps : Schema → List (String × Json) → List TrackerOp
  | .snil, _ => []
  | .scons name ty _ rest, o => fieldPopOps name ty o ++ populateOps rest o

/-- The tracker calls of deserializing one field.  A present nested object
runs the nested `deserializeWithResult` (structa.h lines 367-387): a 512-byte
allocation, then a matching deallocation on the parse-failure exit (not taken
for re-rendered text), the validation-failure exit and the success exit. -/
def fieldPopOps : String → FieldTy → List (String × Json) → List TrackerOp
  | name, .tobj sub, o =>
      match getKey? o name with
      | some (.jobj ms) =>
          .alloc 512 ::
          ((match validateSchema (flatten sub) ms with
            | .failure _ => []
            | .success _ => populateOps sub ms) ++ [.dealloc 512])
      | _ => []
  | _, _, _ => []
end

/-- The tracker calls of one `deserializeWithResult` call (structa.h lines
367-387): the 512-byte allocation, then a matching deallocation on the
parse-failure exit, the validation-failure exit and the success exit, with
the nested field-population calls in between on success. -/
def deserializeOps (s : Schema) (t : JText) : List TrackerOp :=
  .alloc 512 ::
  (match parseText t with
   | .error _ => [.dealloc 512]
   | .ok j =>
     match validateSchema (flatten s) (asObjMembers j) with
     | .failure _ => [.dealloc 512]
     | .success _ => populateOps s (asObjMembers j) ++ [.dealloc 512])

/-- One engine call of a sequence: a serialize of some instance or a
deserialize of some text, each against its record type's schema. -/
inductive ApiCall where
  | ser (s : Schema) (x : Inst)
  | deser (s : Schema) (t : JText)

/-- The tracker calls one engine call performs. -/
def callOps : ApiCall → List TrackerOp
  | .ser s x => serializeOps s x
  | .deser s t => deserializeOps s t

/-- The tracker calls of a whole call sequence, in order. -/
def seqOps : List ApiCall → List TrackerOp
  | [] => []
  | c :: rest => callOps c ++ seqOps rest

/-- A generic value whose members satisfy every `User` field constraint. -/
def demoGoodObj : List (String × Json) :=
  [("username", .jstr "alice"), ("role", .jstr "admin"), ("age", .jint 30),
   ("note", .jstr "hi"),
   ("address", .jobj [("city", .jstr "town"), ("zip", .jint 7)])]

/-! ## Properties of the flat validator -/

theorem checkFieldValue_path (f : FieldSchema) (v : Json) (e : ErrorInfo)
    (h : checkFieldValue f v = some e) : e.fieldPath = f.name := by
  unfold checkFieldValue at h
  split at h
  case _ =>
    split at h
    case _ =>
      split at h
      · exact (Option.some.injEq ..).mp h ▸ rfl
      · split at h
        · exact (Option.some.injEq ..).mp h ▸ rfl
        · exact absurd h (by simp)
    all_goals exact (Option.some.injEq ..).mp h ▸ rfl
  case _ =>
    have aux : ∀ q, checkFloatBounds f q = some e → e.fieldPath = f.name := by
      intro q hq
      unfold checkFloatBounds at hq
      split at hq
      · exact (Option.some.injEq ..).mp hq ▸ rfl
      · split at hq
        · exact (Option.some.injEq ..).mp hq ▸ rfl
        · exact absurd hq (by simp)
    split at h
    · exact aux _ h
    · exact aux _ h
    · exact (Option.some.injEq ..).mp h ▸ rfl
  case _ =>
    split at h
    · exact absurd h (by simp)
    · exact (Option.some.injEq ..).mp h ▸ rfl
  case _ =>
    split at h
    case _ =>
      split at h
      · exact (Option.some.injEq ..).mp h ▸ rfl
      · split at h
        · exact (Option.some.injEq ..).mp h ▸ rfl
        · split at h
          · split at h
            · exact absurd h (by simp)
            · exact (Option.some.injEq ..).mp h ▸ rfl
          · exact absurd h (by simp)
    all_goals exact (Option.some.injEq ..).mp h ▸ rfl
  case _ =>
    split at h
    · exact absurd h (by simp)
    · exact (Option.some.injEq ..).mp h ▸ rfl
  case _ => exact absurd h (by simp)

theorem fieldError_path (f : FieldSchema) (o : List (String × Json)) (e : ErrorInfo)
    (h : fieldError f o = some e) : e.fieldPath = f.name := by
  unfold fieldError at h
  split at h
  · exact absurd h (by simp)
  · split at h
    · split at h
      · exact (Option.some.injEq ..).mp h ▸ rfl
      · exact absurd h (by simp)
    · exact checkFieldValue_path f _ e h

theorem validateSchema_success_iff (l : List FieldSchema) (o : List (String × Json)) :
    validateSchema l o = .success () ↔ ∀ f ∈ l, fieldError f o = none := by
  induction l with
  | nil => simp [validateSchema]
  | cons f rest ih =>
      simp only [validateSchema]
      cases h : fieldError f o with
      | some e => simp [h]
      | none => simpa [h] using ih

theorem validateSchema_failure_decomp (l : List FieldSchema) (o : List (String × Json))
    (e : ErrorInfo) (h : validateSchema l o = .failure e) :
    ∃ pre f post, l = pre ++ f :: post ∧ (∀ g ∈ pre, fieldError g o = none) ∧
      fieldError f o = some e := by
  induction l with
  | nil => simp [validateSchema] at h
  | cons f rest ih =>
      rw [validateSchema] at h
      cases hf : fieldError f o with
      | some e' =>
          rw [hf] at h
          refine ⟨[], f, rest, rfl, by simp, ?_⟩
          cases h
          exact hf
      | none =>
          rw [hf] at h
          obtain ⟨pre, g, post, hsplit, hpre, hg⟩ := ih h
          exact ⟨f :: pre, g, post, by simp [hsplit], by
            intro g' hg'
            rcases List.mem_cons.mp hg' with h' | h'
            · exact h' ▸ hf
            · exact hpre g' h', hg⟩

/-- C2.  Fail-fast ordering: `validateSchema` returns `Success` exactly when
every field passes the full per-field check, and any returned `Failure` is
the per-field error of the first field (in declaration order) violating a
rule, `fieldPath` being that field's name. -/
theorem validateSchema_fail_fast (l : List FieldSchema) (o : List (String × Json)) :
    (validateSchema l o = .success () ↔ ∀ f ∈ l, fieldError f o = none) ∧
    (∀ e, validateSchema l o = .failure e →
      ∃ pre f post, l = pre ++ f :: post ∧ (∀ g ∈ pre, fieldError g o = none) ∧
        fieldError f o = some e ∧ e.fieldPath = f.name) := by
  refine ⟨validateSchema_success_iff l o, fun e h => ?_⟩
  obtain ⟨pre, f, post, hsplit, hpre, hf⟩ := validateSchema_failure_decomp l o e h
  exact ⟨pre, f, post, hsplit, hpre, hf, fieldError_path f o e hf⟩

/-- Witness for C2 at the example `User` schema and a conforming object. -/
theorem validateSchema_fail_fast_witness :
    validateSchema (flatten userSchema) demoGoodObj = .success () :=
  (validateSchema_fail_fast (flatten userSchema) demoGoodObj).1.mpr (by decide)

/-- C4.  Unvalidated passthrough: a `validate=false` field is checked against
nothing — its per-field outcome is `none` for every input object (present,
absent, wrong-typed or out-of-range alike), and `validateSchema` of any
schema containing it behaves as if the field were not declared. -/
theorem unvalidated_passthrough (f : FieldSchema) (o : List (String × Json))
    (pre post : List FieldSchema) (hf : f.validate = false) :
    fieldError f o = none ∧
    validateSchema (pre ++ f :: post) o = validateSchema (pre ++ post) o := by
  have h1 : fieldError f o = none := by simp [fieldError, hf]
  refine ⟨h1, ?_⟩
  induction pre with
  | nil => simp [validateSchema, h1]
  | cons g rest ih =>
      simp only [List.cons_append, validateSchema]
      cases fieldError g o <;> simp [ih]

/-- Witness for C4: a required unvalidated int field holding a string is not
rejected. -/
theorem unvalidated_passthrough_witness :
    (toFieldSchema "x" .INT makeMetaNone).validate = false ∧
    (fieldError (toFieldSchema "x" .INT makeMetaNone) [("x", Json.jstr "oops")] = none ∧
     validateSchema ([] ++ toFieldSchema "x" .INT makeMetaNone :: []) [("x", Json.jstr "oops")] =
       validateSchema ([] ++ []) [("x", Json.jstr "oops")]) :=
  ⟨by decide,
   unvalidated_passthrough (toFieldSchema "x" .INT makeMetaNone)
     [("x", Json.jstr "oops")] [] [] (by decide)⟩

/-- C5.  Inclusive numeric bounds: on an int field declared `range(18, 100)`,
the values 17 and 101 fail with a bounds-related `TYPE_MISMATCH` carrying the
field's name, while 18 and 100 validate successfully. -/
theorem range_bounds_inclusive (name : String) :
    validateSchema [toFieldSchema name .INT (makeMetaRange 18 100)] [(name, .jint 17)]
      = .failure ⟨.TYPE_MISMATCH, "Value below min", name⟩ ∧
    validateSchema [toFieldSchema name .INT (makeMetaRange 18 100)] [(name, .jint 101)]
      = .failure ⟨.TYPE_MISMATCH, "Value above max", name⟩ ∧
    validateSchema [toFieldSchema name .INT (makeMetaRange 18 100)] [(name, .jint 18)]
      = .success () ∧
    validateSchema [toFieldSchema name .INT (makeMetaRange 18 100)] [(name, .jint 100)]
      = .success () := by
  have h18 : truncToLong 18 = 18 := by decide
  have h100 : truncToLong 100 = 100 := by decide
  refine ⟨?_, ?_, ?_, ?_⟩ <;>
    simp [validateSchema, fieldError, getKey?, checkFieldValue, toFieldSchema,
      makeMetaRange, FieldMeta.default, intBelowMin, intAboveMax, h18, h100]

/-- Witness for C5 at the field name `age`. -/
theorem range_bounds_inclusive_witness :
    validateSchema [toFieldSchema "age" .INT (makeMetaRange 18 100)] [("age", .jint 17)]
      = .failure ⟨.TYPE_MISMATCH, "Value below min", "age"⟩ :=
  (range_bounds_inclusive "age").1

theorem fieldError_nil (g : FieldSchema) :
    fieldError g [] = if g.validate && g.required
      then some ⟨.FIELD_MISSING, "Required field missing", g.name⟩ else none := by
  unfold fieldError
  cases g.validate <;> cases hr : g.required <;> simp [getKey?, hr]

theorem validateSchema_skip_none (l1 l2 : List FieldSchema) (o : List (String × Json))
    (h : ∀ g ∈ l1, fieldError g o = none) :
    validateSchema (l1 ++ l2) o = validateSchema l2 o := by
  induction l1 with
  | nil => rfl
  | cons g rest ih =>
      have hg : fieldError g o = none := h g (by simp)
      simp only [List.cons_append, validateSchema, hg]
      exact ih fun g' hg' => h g' (by simp [hg'])

/-- C6.  Required-field omission: deserializing the empty-object text against
a schema whose first required-and-validated field is `f` yields
`FIELD_MISSING` with `fieldPath` equal to `f`'s name. -/
theorem required_field_omission (s : Schema) (pre post : List FieldSchema) (f : FieldSchema)
    (hsplit : flatten s = pre ++ f :: post)
    (hreq : f.required = true) (hval : f.validate = true)
    (hfirst : ∀ g ∈ pre, ¬(g.required = true ∧ g.validate = true)) :
    deserializeWithResult s (.wellFormed (.jobj [])) =
      .failure ⟨.FIELD_MISSING, "Required field missing", f.name⟩ := by
  have hv : validateSchema (flatten s) [] =
      .failure ⟨.FIELD_MISSING, "Required field missing", f.name⟩ := by
    rw [hsplit, validateSchema_skip_none]
    · rw [validateSchema, fieldError_nil, hreq, hval]
      simp
    · intro g hg
      rw [fieldError_nil]
      have := hfirst g hg
      cases hgr : g.required <;> cases hgv : g.validate <;>
        simp_all
  simp [deserializeWithResult, parseText, asObjMembers, hv]

/-- Witness for C6 at a one-field schema with a required validated field. -/
theorem required_field_omission_witness :
    (flatten nestedReqSchema = [] ++ toFieldSchema "zip" .INT FieldMeta.default :: []) ∧
    (toFieldSchema "zip" .INT FieldMeta.default).required = true ∧
    (toFieldSchema "zip" .INT FieldMeta.default).validate = true ∧
    deserializeWithResult nestedReqSchema (.wellFormed (.jobj [])) =
      .failure ⟨.FIELD_MISSING, "Required field missing", "zip"⟩ :=
  ⟨by decide, by decide, by decide,
   required_field_omission nestedReqSchema [] []
     (toFieldSchema "zip" .INT FieldMeta.default) (by decide) (by decide) (by decide)
     (by simp)⟩

/-- C7.  After a successful parse and a successful validation, field
population cannot fail: `deserializeWithResult` returns `Success` with the
populated instance. -/
theorem population_cannot_fail (s : Schema) (t : JText) (j : Json)
    (hp : parseText t = .ok j)
    (hv : validateSchema (flatten s) (asObjMembers j) = .success ()) :
    deserializeWithResult s t = .success (populateFields s (asObjMembers j)) := by
  simp [deserializeWithResult, hp, hv]

/-- Witness for C7 at the example `User` schema and a conforming object. -/
theorem population_cannot_fail_witness :
    parseText (.wellFormed (.jobj demoGoodObj)) = .ok (.jobj demoGoodObj) ∧
    validateSchema (flatten userSchema) (asObjMembers (.jobj demoGoodObj)) = .success () ∧
    deserializeWithResult userSchema (.wellFormed (.jobj demoGoodObj)) =
      .success (populateFields userSchema (asObjMembers (.jobj demoGoodObj))) :=
  ⟨rfl, by decide,
   population_cannot_fail userSchema (.wellFormed (.jobj demoGoodObj)) (.jobj demoGoodObj)
     rfl (by decide)⟩

/-- Counterexample to C9 as stated: at running total 5, deallocating 7 does
not saturate the total to zero — `recordDeallocation` leaves it at 5. -/
theorem dealloc_saturation_counterexample :
    (recordDeallocation ⟨5, 5⟩ 7).total ≠ 0 := by decide

/-- C9 amended.  `recordDeallocation` never drives the total negative: when
the requested size exceeds the outstanding total it leaves the counters
unchanged (it does not zero them), otherwise the total drops by the size;
the peak is untouched and there is no failure mode. -/
theorem dealloc_no_underflow (t p size : Nat) :
    recordDeallocation ⟨t, p⟩ size = ⟨if size ≤ t then t - size else t, p⟩ := by
  unfold recordDeallocation
  split <;> simp_all

/-- C10.  When the in-memory state fails its own schema's validation,
`serializeWithResult` fails before rendering and the convenience `serialize`
discards the error and returns the empty-object text. -/
theorem serialize_invalid_state_yields_empty (s : Schema) (x : Inst)
    (h : (validateSelf s x).isOk = false) :
    serialize s x = .wellFormed (.jobj []) := by
  unfold serialize serializeWithResult
  cases hv : validateSelf s x with
  | success u => rw [hv] at h; simp [SResult.isOk] at h
  | failure e => simp

/-- Witness for C10: a `User` whose `age` is 17 serializes to the
empty-object text. -/
theorem serialize_invalid_state_witness :
    (validateSelf userSchema badAgeUser).isOk = false ∧
    serialize userSchema badAgeUser = .wellFormed (.jobj []) :=
  ⟨by decide, serialize_invalid_state_yields_empty userSchema badAgeUser (by decide)⟩

/-- Counterexample to C3 as stated: deserializing, against a record with an
`optional()` nested-object field, an input whose nested object is missing its
own required field does not make the call fail — the outer
`deserializeWithResult` succeeds. -/
theorem nested_failure_counterexample :
    (deserializeWithResult outerOptSchema
      (.wellFormed (.jobj [("address", .jobj [])]))).isOk = true := by decide

/-- C3 amended.  A record with an `optional()` nested-object field
deserializes successfully when the field is omitted; when the field is
present, the nested schema's validation runs inside the recursive nested
deserialization — a nested object missing its own required field makes that
inner call fail with the nested field's name as `fieldPath` — but the outer
call discards the nested failure through the convenience `T::deserialize`
and succeeds with a default-constructed nested instance. -/
theorem nested_validation_swallowed :
    (deserializeWithResult outerOptSchema (.wellFormed (.jobj []))).isOk = true ∧
    deserializeInst outerOptSchema (.wellFormed (.jobj [("address", .jobj [])]))
      = .icons (.vrec (defaultInst nestedReqSchema)) .inil ∧
    (deserializeWithResult nestedReqSchema (.wellFormed (.jobj []))).errorOf
      = some ⟨.FIELD_MISSING, "Required field missing", "zip"⟩ :=
  ⟨by decide, by rfl, by decide⟩

/-! ## Allocation accounting -/

theorem applyOps_append (l1 l2 : List TrackerOp) (st : Tracker) :
    applyOps (l1 ++ l2) st = applyOps l2 (applyOps l1 st) :=
  List.foldl_append applyOp st l1 l2

theorem peak_recordDeallocation (st : Tracker) (n : Nat) :
    (recordDeallocation st n).peak = st.peak := by
  unfold recordDeallocation
  split <;> rfl

theorem peak_mono_op (st : Tracker) (op : TrackerOp) : st.peak ≤ (applyOp st op).peak := by
  cases op with
  | alloc n =>
      show st.peak ≤ (recordAllocation st n).peak
      unfold recordAllocation
      split
      · next h => exact Nat.le_of_lt h
      · exact le_refl _
  | dealloc n =>
      show st.peak ≤ (recordDeallocation st n).peak
      rw [peak_recordDeallocation]

theorem peak_mono (ops : List TrackerOp) (st : Tracker) :
    st.peak ≤ (applyOps ops st).peak := by
  induction ops generalizing st with
  | nil => exact le_refl _
  | cons op rest ih =>
      calc st.peak ≤ (applyOp st op).peak := peak_mono_op st op
        _ ≤ (applyOps rest (applyOp st op)).peak := ih _
        _ = (applyOps (op :: rest) st).peak := rfl

theorem balanced_nil : Balanced [] := fun _ => ⟨rfl, le_refl _⟩

theorem balanced_append (l1 l2 : List TrackerOp)
    (h1 : Balanced l1) (h2 : Balanced l2) : Balanced (l1 ++ l2) := by
  intro st
  rw [applyOps_append]
  obtain ⟨ht1, hp1⟩ := h1 st
  obtain ⟨ht2, hp2⟩ := h2 (applyOps l1 st)
  exact ⟨by rw [ht2, ht1], le_trans hp1 hp2⟩

theorem balanced_bracket (n : Nat) (l : List TrackerOp) (h : Balanced l) :
    Balanced (.alloc n :: (l ++ [.dealloc n])) := by
  intro st
  obtain ⟨ht, hp⟩ := h (applyOp st (.alloc n))
  have heq : applyOps (TrackerOp.alloc n :: (l ++ [TrackerOp.dealloc n])) st
      = applyOp (applyOps l (applyOp st (.alloc n))) (.dealloc n) := by
    show applyOps (l ++ [TrackerOp.dealloc n]) (applyOp st (.alloc n)) = _
    rw [applyOps_append]
    rfl
  have hmidt : (applyOps l (applyOp st (.alloc n))).total = st.total + n := by
    rw [ht]; rfl
  constructor
  · rw [heq]
    show (recordDeallocation _ n).total = st.total
    unfold recordDeallocation
    rw [hmidt]
    simp
  · rw [heq]
    show st.peak ≤ (recordDeallocation _ n).peak
    rw [peak_recordDeallocation]
    exact le_trans (peak_mono_op st (.alloc n)) hp

mutual
theorem balanced_instOps (s : Schema) (x : Inst) : Balanced (instOps s x) := by
  cases s with
  | snil => exact balanced_nil
  | scons name ty meta rest =>
      cases x with
      | inil => exact balanced_nil
      | icons v vs =>
          rw [instOps]
          exact balanced_append _ _ (balanced_valOps ty v) (balanced_instOps rest vs)

theorem balanced_valOps (ty : FieldTy) (v : Value) : Balanced (valOps ty v) := by
  cases ty with
  | tobj sub =>
      cases v with
      | vrec inner =>
          rw [valOps]
          refine balanced_append _ _ (balanced_instOps sub inner) ?_
          cases validateSelf sub inner with
          | failure e => exact balanced_nil
          | success u => exact balanced_bracket 512 _ (balanced_instOps sub inner)
      | vint n => exact balanced_nil
      | vfloat q => exact balanced_nil
      | vbool b => exact balanced_nil
      | vstr s => exact balanced_nil
  | tint => exact balanced_nil
  | tfloat => exact balanced_nil
  | tbool => exact balanced_nil
  | tstr => exact balanced_nil
end

theorem balanced_serializeOps (s : Schema) (x : Inst) : Balanced (serializeOps s x) := by
  rw [serializeOps]
  refine balanced_append _ _ (balanced_instOps s x) ?_
  cases validateSelf s x with
  | failure e => exact balanced_nil
  | success u => exact balanced_bracket 512 _ (balanced_instOps s x)

theorem balanced_pair (n : Nat) : Balanced [.alloc n, .dealloc n] := by
  have h := balanced_bracket n [] balanced_nil
  simpa using h

mutual
theorem balanced_populateOps (s : Schema) (o : List (String × Json)) :
    Balanced (populateOps s o) := by
  cases s with
  | snil => exact balanced_nil
  | scons name ty meta rest =>
      rw [populateOps]
      exact balanced_append _ _ (balanced_fieldPopOps name ty o)
        (balanced_populateOps rest o)

theorem balanced_fieldPopOps (name : String) (ty : FieldTy)
    (o : List (String × Json)) : Balanced (fieldPopOps name ty o) := by
  cases ty with
  | tobj sub =>
      rw [fieldPopOps]
      cases hk : getKey? o name with
      | none => exact balanced_nil
      | some v =>
          cases v with
          | jobj ms =>
              cases hv : validateSchema (flatten sub) ms with
              | failure e =>
                  simp only [hv]
                  exact balanced_pair 512
              | success u =>
                  simp only [hv]
                  exact balanced_bracket 512 _ (balanced_populateOps sub ms)
          | jint n => exact balanced_nil
          | jfloat q => exact balanced_nil
          | jbool b => exact balanced_nil
          | jstr s => exact balanced_nil
  | tint => exact balanced_nil
  | tfloat => exact balanced_nil
  | tbool => exact balanced_nil
  | tstr => exact balanced_nil
end

theorem balanced_deserializeOps (s : Schema) (t : JText) :
    Balanced (deserializeOps s t) := by
  rw [deserializeOps]
  cases hp : parseText t with
  | error msg =>
      simp only [hp]
      exact balanced_pair 512
  | ok j =>
      simp only [hp]
      cases hv : validateSchema (flatten s) (asObjMembers j) with
      | failure e =>
          simp only [hv]
          exact balanced_pair 512
      | success u =>
          simp only [hv]
          exact balanced_bracket 512 _ (balanced_populateOps s (asObjMembers j))

theorem balanced_seqOps (calls : List ApiCall) : Balanced (seqOps calls) := by
  induction calls with
  | nil => exact balanced_nil
  | cons c rest ih =>
      rw [seqOps]
      refine balanced_append _ _ ?_ ih
      cases c with
      | ser s x => exact balanced_serializeOps s x
      | deser s t => exact balanced_deserializeOps s t

theorem seqOps_append (l1 l2 : List ApiCall) :
    seqOps (l1 ++ l2) = seqOps l1 ++ seqOps l2 := by
  induction l1 with
  | nil => rfl
  | cons c rest ih => rw [List.cons_append, seqOps, seqOps, ih, List.append_assoc]

/-- C8.  Accounting balance: after any sequence of serialize/deserialize
calls — succeeding or failing, nested sub-records included — the tracker's
running total returns to its starting value, while the peak high-water mark
never decreases: it dominates the starting peak and extending the sequence
can only raise it further. -/
theorem accounting_balance (calls more : List ApiCall) (st : Tracker) :
    (applyOps (seqOps calls) st).total = st.total ∧
    st.peak ≤ (applyOps (seqOps calls) st).peak ∧
    (applyOps (seqOps calls) st).peak ≤ (applyOps (seqOps (calls ++ more)) st).peak := by
  obtain ⟨ht, hp⟩ := balanced_seqOps calls st
  refine ⟨ht, hp, ?_⟩
  rw [seqOps_append, applyOps_append]
  exact peak_mono _ _

/-- Witness for C8 at a two-call sequence: a failing deserialize of
malformed text followed by a serialize of a valid instance. -/
theorem accounting_balance_witness :
    (applyOps (seqOps [.deser userSchema (.malformed "oops"), .ser userSchema demoUser])
      ⟨0, 0⟩).total = (⟨0, 0⟩ : Tracker).total :=
  (accounting_balance [.deser userSchema (.malformed "oops"), .ser userSchema demoUser]
    [] ⟨0, 0⟩).1

/-- Witness for C9 (amended) at total 5, peak 9, size 2. -/
theorem dealloc_no_underflow_witness :
    recordDeallocation ⟨5, 9⟩ 2 = ⟨if 2 ≤ 5 then 5 - 2 else 5, 9⟩ :=
  dealloc_no_underflow 5 9 2

/-! ## Round trip -/

theorem getKey?_setKey_self (o : List (String × Json)) (k : String) (v : Json) :
    getKey? (setKey o k v) k = some v := by
  induction o with
  | nil => simp [setKey, getKey?]
  | cons p rest ih =>
      obtain ⟨k0, w⟩ := p
      by_cases h : k0 = k <;> simp [setKey, getKey?, h, ih]

theorem getKey?_setKey_ne (o : List (String × Json)) (k k' : String) (v : Json)
    (h : k' ≠ k) : getKey? (setKey o k v) k' = getKey? o k' := by
  have h' : ¬ k = k' := fun hh => h (Eq.symm hh)
  induction o with
  | nil => simp [setKey, getKey?, h']
  | cons p rest ih =>
      obtain ⟨k0, w⟩ := p
      by_cases h0 : k0 = k
      · subst h0
        rw [setKey, if_pos rfl]
        simp only [getKey?]
        rw [if_neg h', if_neg h']
      · simp [setKey, getKey?, h0, ih]

theorem getKey?_serializeFields_notin :
    ∀ (s : Schema) (x : Inst) (o : List (String × Json)) (k : String),
      (names s).contains k = false →
      getKey? (serializeFields s x o) k = getKey? o k
  | .snil, _, _, _, _ => rfl
  | .scons n ty m rest, .inil, o, k, _ => rfl
  | .scons n ty m rest, .icons v vs, o, k, hk => by
      simp only [names, List.contains_cons, Bool.or_eq_false_iff,
        beq_eq_false_iff_ne] at hk
      rw [serializeFields,
        getKey?_serializeFields_notin rest vs _ k hk.2,
        getKey?_setKey_ne o n k _ hk.1]

theorem validate_serializeFields :
    ∀ (s : Schema) (x : Inst) (o : List (String × Json)),
      instMatches s x = true → schemaNodup s = true → instSat s x = true →
      validateSchema (flatten s) (serializeFields s x o) = .success ()
  | .snil, .inil, _, _, _, _ => rfl
  | .snil, .icons v vs, o, hm, _, _ => by simp [instMatches] at hm
  | .scons n ty m rest, .inil, o, hm, _, _ => by simp [instMatches] at hm
  | .scons n ty m rest, .icons v vs, o, hm, hn, hs => by
      simp only [instMatches, Bool.and_eq_true] at hm
      simp only [schemaNodup, Bool.and_eq_true, Bool.not_eq_true'] at hn
      simp only [instSat, Bool.and_eq_true, beq_iff_eq] at hs
      simp only [toFieldSchema] at hs
      rw [flatten, serializeFields]
      have hkey : getKey? (serializeFields rest vs (setKey o n (serializeFieldVal ty v))) n
          = some (serializeFieldVal ty v) := by
        rw [getKey?_serializeFields_notin rest vs _ n hn.1.1, getKey?_setKey_self]
      have hfe : fieldError (toFieldSchema n (declType ty) m)
          (serializeFields rest vs (setKey o n (serializeFieldVal ty v))) = none := by
        unfold fieldError
        split
        · rfl
        · simp only [toFieldSchema, hkey]
          exact hs.1.1
      rw [validateSchema, hfe]
      exact validate_serializeFields rest vs _ hm.2 hn.2 hs.2

theorem populate_serializeFields :
    ∀ (s : Schema) (x : Inst) (o : List (String × Json)),
      instMatches s x = true → schemaNodup s = true → instSat s x = true →
      populateFields s (serializeFields s x o) = x
  | .snil, .inil, _, _, _, _ => rfl
  | .snil, .icons v vs, o, hm, _, _ => by simp [instMatches] at hm
  | .scons n ty m rest, .inil, o, hm, _, _ => by simp [instMatches] at hm
  | .scons n ty m rest, .icons v vs, o, hm, hn, hs => by
      simp only [instMatches, Bool.and_eq_true] at hm
      simp only [schemaNodup, Bool.and_eq_true, Bool.not_eq_true'] at hn
      simp only [instSat, Bool.and_eq_true, beq_iff_eq] at hs
      rw [serializeFields, populateFields,
        populate_serializeFields rest vs _ hm.2 hn.2 hs.2]
      have hkey : getKey? (serializeFields rest vs (setKey o n (serializeFieldVal ty v))) n
          = some (serializeFieldVal ty v) := by
        rw [getKey?_serializeFields_notin rest vs _ n hn.1.1, getKey?_setKey_self]
      congr 1
      cases ty with
      | tint =>
          cases v with
          | vint k =>
              simp only [serializeFieldVal] at hkey ⊢
              simp [populateField, hkey, asValue]
          | vfloat q => simp [valMatches] at hm
          | vbool b => simp [valMatches] at hm
          | vstr s0 => simp [valMatches] at hm
          | vrec inner => simp [valMatches] at hm
      | tfloat =>
          cases v with
          | vfloat q =>
              simp only [serializeFieldVal] at hkey ⊢
              simp [populateField, hkey, asValue]
          | vint k => simp [valMatches] at hm
          | vbool b => simp [valMatches] at hm
          | vstr s0 => simp [valMatches] at hm
          | vrec inner => simp [valMatches] at hm
      | tbool =>
          cases v with
          | vbool b =>
              simp only [serializeFieldVal] at hkey ⊢
              simp [populateField, hkey, asValue]
          | vint k => simp [valMatches] at hm
          | vfloat q => simp [valMatches] at hm
          | vstr s0 => simp [valMatches] at hm
          | vrec inner => simp [valMatches] at hm
      | tstr =>
          cases v with
          | vstr s0 =>
              simp only [serializeFieldVal] at hkey ⊢
              simp [populateField, hkey, asValue]
          | vint k => simp [valMatches] at hm
          | vfloat q => simp [valMatches] at hm
          | vbool b => simp [valMatches] at hm
          | vrec inner => simp [valMatches] at hm
      | tobj sub =>
          cases v with
          | vrec inner =>
              have hmm : instMatches sub inner = true := by
                simpa [valMatches] using hm.1
              have hnn : schemaNodup sub = true := by
                simpa [tyNodup] using hn.1.2
              have hss : instSat sub inner = true := by
                simpa [valSat] using hs.1.2
              have hv : validateSchema (flatten sub) (serializeFields sub inner [])
                  = .success () := validate_serializeFields sub inner [] hmm hnn hss
              have hsv : serializeFieldVal (.tobj sub) (.vrec inner)
                  = .jobj (serializeFields sub inner []) := by
                rw [serializeFieldVal]
                simp only [hv, renderObjLength]
                simp
              rw [hsv] at hkey ⊢
              simp only [populateField, hkey, hv]
              exact congrArg Value.vrec
                (populate_serializeFields sub inner [] hmm hnn hss)
          | vint k => simp [valMatches] at hm
          | vfloat q => simp [valMatches] at hm
          | vbool b => simp [valMatches] at hm
          | vstr s0 => simp [valMatches] at hm

/-- C1.  Round trip: for every well-formed record type (distinct field names
at every level, as C++ member identifiers are) and every well-typed instance
whose every field satisfies its declared constraints, deserializing the
serialized text reproduces the instance field for field. -/
theorem round_trip (s : Schema) (x : Inst)
    (hm : instMatches s x = true) (hn : schemaNodup s = true)
    (hs : instSat s x = true) :
    deserializeInst s (serialize s x) = x := by
  have hval : validateSchema (flatten s) (serializeFields s x []) = .success () :=
    validate_serializeFields s x [] hm hn hs
  have hser : serialize s x = .wellFormed (.jobj (serializeFields s x [])) := by
    unfold serialize serializeWithResult validateSelf
    rw [hval]
    simp [renderObjLength]
  rw [hser]
  unfold deserializeInst deserializeWithResult
  simp only [parseText, asObjMembers, hval,
    populate_serializeFields s x [] hm hn hs]

/-- Witness for C1 at the example `User` record (with its nested `Address`)
and a constraint-satisfying instance. -/
theorem round_trip_witness :
    instMatches userSchema demoUser = true ∧ schemaNodup userSchema = true ∧
    instSat userSchema demoUser = true ∧
    deserializeInst userSchema (serialize userSchema demoUser) = demoUser :=
  ⟨by decide, by decide, by decide,
   round_trip userSchema demoUser (by decide) (by decide) (by decide)⟩

end Structa
